import Mathlib

/-!
Verification of the "Structured-Text-to-Graph Extraction Core" of a
figure-generation repository: the PyPI dependency-graph builder
(`src/dependency_graph/extractor.py`) and the heuristic Terraform parser
(`src/terraform_parser/parser.py`).

Python strings are modelled as lists of Unicode code points (`List Nat`);
`pyOfString` converts a Lean string literal into that representation for
concrete test inputs.  Character classes (`str.strip`, `str.lower`, regex
`\s`, `\w`, `\d`) are modelled over their ASCII behaviour, which covers
every input appearing in the repository.
-/

/-- Python string model: a list of Unicode code points. -/
abbrev PyStr := List Nat

/-- Convert a Lean string literal to its code-point list. -/
def pyOfString (s : String) : PyStr := s.data.map Char.toNat

/-- Characters on which `_normalize_package_name` splits, i.e. the regex
class `[>=<@\[]` — the code points of `>`, `=`, `<`, `@`, `[`. -/
def isSepChar (c : Nat) : Bool := c == 62 || c == 61 || c == 60 || c == 64 || c == 91

/-- Whitespace for `str.strip()` and regex `\s` (ASCII model):
space, tab, newline, carriage return, vertical tab, form feed. -/
def isSpaceChar (c : Nat) : Bool :=
  c == 32 || c == 9 || c == 10 || c == 13 || c == 11 || c == 12

/-- Regex `\w` (ASCII model): letters, digits, underscore. -/
def isWordChar (c : Nat) : Bool :=
  (97 ≤ c && c ≤ 122) || (65 ≤ c && c ≤ 90) || (48 ≤ c && c ≤ 57) || c == 95

/-- Regex `\d` (ASCII model). -/
def isDigitChar (c : Nat) : Bool := 48 ≤ c && c ≤ 57

/-- Python `str.strip()`: remove leading and trailing whitespace. -/
def pyStrip (s : PyStr) : PyStr :=
  (((s.dropWhile isSpaceChar).reverse).dropWhile isSpaceChar).reverse

/-- Python `str.lower()` on one code point (ASCII model). -/
def pyLowerChar (c : Nat) : Nat := if 65 ≤ c ∧ c ≤ 90 then c + 32 else c

/-- One step of Python `str.replace("_", "-")`: underscore (95) to hyphen (45). -/
def underscoreToHyphen (c : Nat) : Nat := if c = 95 then 45 else c

/-- Embedding of `_normalize_package_name` (extractor.py):
`re.split(r"[>=<@\[]", pkg_spec)[0].strip()` — everything before the first
separator character, stripped — then `.lower().replace("_", "-")`. -/
def normalizePackageName (pkgSpec : PyStr) : PyStr :=
  ((pyStrip (pkgSpec.takeWhile (fun c => !isSepChar c))).map pyLowerChar).map
    underscoreToHyphen

/-! ### Helper lemmas for idempotence of the normalizer -/

/-- The list has no leading whitespace character. -/
def noLeadWs (s : PyStr) : Prop :=
  match s with
  | [] => True
  | c :: _ => isSpaceChar c = false

/-- The list has no trailing whitespace character. -/
def noTrailWs (s : PyStr) : Prop := noLeadWs s.reverse

lemma takeWhile_eq_self {p : Nat → Bool} {l : PyStr}
    (h : ∀ c ∈ l, p c = true) : l.takeWhile p = l :=
  List.takeWhile_eq_self_iff.mpr h

lemma mem_dropWhile {p : Nat → Bool} {l : PyStr} {c : Nat}
    (h : c ∈ l.dropWhile p) : c ∈ l := by
  induction l with
  | nil => simp at h
  | cons a rest ih =>
    by_cases ha : p a
    · rw [List.dropWhile_cons_of_pos ha] at h
      exact List.mem_cons_of_mem a (ih h)
    · rw [List.dropWhile_cons_of_neg ha] at h
      exact h

lemma mem_pyStrip {l : PyStr} {c : Nat} (h : c ∈ pyStrip l) : c ∈ l := by
  unfold pyStrip at h
  rw [List.mem_reverse] at h
  have h2 := mem_dropWhile h
  rw [List.mem_reverse] at h2
  exact mem_dropWhile h2

lemma noLeadWs_dropWhile (l : PyStr) : noLeadWs (l.dropWhile isSpaceChar) := by
  induction l with
  | nil => trivial
  | cons a rest ih =>
    by_cases ha : isSpaceChar a
    · rw [List.dropWhile_cons_of_pos ha]
      exact ih
    · rw [List.dropWhile_cons_of_neg ha]
      exact Bool.of_not_eq_true ha

lemma dropWhile_eq_self_of_noLead {l : PyStr} (h : noLeadWs l) :
    l.dropWhile isSpaceChar = l := by
  cases l with
  | nil => rfl
  | cons a rest =>
    have ha : ¬ (isSpaceChar a = true) := by
      simp only [noLeadWs] at h
      simp [h]
    exact List.dropWhile_cons_of_neg ha

lemma exists_dropWhile_append (p : Nat → Bool) (l : PyStr) :
    ∃ u, l = u ++ l.dropWhile p := by
  induction l with
  | nil => exact ⟨[], rfl⟩
  | cons a rest ih =>
    by_cases ha : p a
    · obtain ⟨u, hu⟩ := ih
      refine ⟨a :: u, ?_⟩
      rw [List.dropWhile_cons_of_pos ha]
      simpa using hu
    · refine ⟨[], ?_⟩
      rw [List.dropWhile_cons_of_neg ha]
      simp

lemma pyStrip_noTrail (l : PyStr) : noTrailWs (pyStrip l) := by
  unfold noTrailWs pyStrip
  rw [List.reverse_reverse]
  exact noLeadWs_dropWhile _

lemma pyStrip_noLead (l : PyStr) : noLeadWs (pyStrip l) := by
  unfold pyStrip
  set d := l.dropWhile isSpaceChar with hd
  have hdl : noLeadWs d := noLeadWs_dropWhile l
  obtain ⟨u, hu⟩ := exists_dropWhile_append isSpaceChar d.reverse
  set w := d.reverse.dropWhile isSpaceChar with hw
  have hdrev : d = w.reverse ++ u.reverse := by
    have := congrArg List.reverse hu
    simpa using this
  cases hwr : w.reverse with
  | nil => simp [hwr, noLeadWs]
  | cons c tail =>
    rw [hdrev, hwr] at hdl
    simp only [List.cons_append] at hdl
    simpa [hwr, noLeadWs] using hdl

lemma pyStrip_eq_self {l : PyStr} (h1 : noLeadWs l) (h2 : noTrailWs l) :
    pyStrip l = l := by
  unfold pyStrip
  rw [dropWhile_eq_self_of_noLead h1, dropWhile_eq_self_of_noLead h2,
    List.reverse_reverse]

lemma map_eq_self {α : Type} {f : α → α} {l : List α} (h : ∀ c ∈ l, f c = c) :
    l.map f = l := by
  induction l with
  | nil => rfl
  | cons a rest ih =>
    simp only [List.map_cons, h a (by simp)]
    rw [ih fun c hc => h c (by simp [hc])]

/-- Output characters of the normalizer are fixed by both character maps. -/
lemma normChar_fixed (b : Nat) :
    pyLowerChar (underscoreToHyphen (pyLowerChar b)) = underscoreToHyphen (pyLowerChar b) ∧
    underscoreToHyphen (underscoreToHyphen (pyLowerChar b)) = underscoreToHyphen (pyLowerChar b) := by
  unfold pyLowerChar underscoreToHyphen
  split_ifs <;> omega

/-- Output characters of the normalizer are never separator characters,
provided the input character was not one. -/
lemma normChar_notSep {b : Nat} (hb : isSepChar b = false) :
    isSepChar (underscoreToHyphen (pyLowerChar b)) = false := by
  simp only [isSepChar, Bool.or_eq_false_iff, beq_eq_false_iff_ne, ne_eq] at hb ⊢
  unfold pyLowerChar underscoreToHyphen
  split_ifs <;> omega

/-- The two character maps of the normalizer never turn a non-whitespace
character into whitespace. -/
lemma normChar_notWs {b : Nat} (hb : isSpaceChar b = false) :
    isSpaceChar (underscoreToHyphen (pyLowerChar b)) = false := by
  simp only [isSpaceChar, Bool.or_eq_false_iff, beq_eq_false_iff_ne, ne_eq] at hb ⊢
  unfold pyLowerChar underscoreToHyphen
  split_ifs <;> omega

lemma pyLowerChar_notWs {c : Nat} (h : isSpaceChar c = false) :
    isSpaceChar (pyLowerChar c) = false := by
  simp only [isSpaceChar, Bool.or_eq_false_iff, beq_eq_false_iff_ne, ne_eq] at h ⊢
  unfold pyLowerChar
  split_ifs <;> omega

lemma underscoreToHyphen_notWs {c : Nat} (h : isSpaceChar c = false) :
    isSpaceChar (underscoreToHyphen c) = false := by
  simp only [isSpaceChar, Bool.or_eq_false_iff, beq_eq_false_iff_ne, ne_eq] at h ⊢
  unfold underscoreToHyphen
  split_ifs <;> omega

lemma noLeadWs_map {f : Nat → Nat} (hf : ∀ c, isSpaceChar c = false → isSpaceChar (f c) = false)
    {l : PyStr} (h : noLeadWs l) : noLeadWs (l.map f) := by
  cases l with
  | nil => trivial
  | cons a rest => exact hf a h

lemma noTrailWs_map {f : Nat → Nat} (hf : ∀ c, isSpaceChar c = false → isSpaceChar (f c) = false)
    {l : PyStr} (h : noTrailWs l) : noTrailWs (l.map f) := by
  unfold noTrailWs at h ⊢
  rw [← List.map_reverse]
  exact noLeadWs_map hf h

/-- Idempotence of `_normalize_package_name` (helper form). -/
lemma normalizePackageName_idem (s : PyStr) :
    normalizePackageName (normalizePackageName s) = normalizePackageName s := by
  have hu : ∀ l : PyStr, normalizePackageName l =
      ((pyStrip (l.takeWhile (fun c => !isSepChar c))).map pyLowerChar).map
        underscoreToHyphen := fun _ => rfl
  set u := pyStrip (s.takeWhile (fun c => !isSepChar c)) with hudef
  set t := (u.map pyLowerChar).map underscoreToHyphen with ht
  have htdef : normalizePackageName s = t := hu s
  have hmem : ∀ c ∈ t, ∃ b ∈ u, c = underscoreToHyphen (pyLowerChar b) := by
    intro c hc
    rw [ht] at hc
    simp only [List.mem_map] at hc
    obtain ⟨x, ⟨b, hb, hxb⟩, hx⟩ := hc
    exact ⟨b, hb, by rw [← hx, ← hxb]⟩
  have hsep : ∀ c ∈ t, (!isSepChar c) = true := by
    intro c hc
    obtain ⟨b, hb, hcb⟩ := hmem c hc
    have hbs : isSepChar b = false := by
      have := List.mem_takeWhile_imp (mem_pyStrip (hudef ▸ hb))
      simpa using this
    simp [hcb, normChar_notSep hbs]
  have htake : t.takeWhile (fun c => !isSepChar c) = t := takeWhile_eq_self hsep
  have huLead : noLeadWs u := hudef ▸ pyStrip_noLead _
  have huTrail : noTrailWs u := hudef ▸ pyStrip_noTrail _
  have hlead : noLeadWs t :=
    ht ▸ noLeadWs_map (fun c hc => underscoreToHyphen_notWs hc)
      (noLeadWs_map (fun c hc => pyLowerChar_notWs hc) huLead)
  have htrail : noTrailWs t :=
    ht ▸ noTrailWs_map (fun c hc => underscoreToHyphen_notWs hc)
      (noTrailWs_map (fun c hc => pyLowerChar_notWs hc) huTrail)
  have hlow : ∀ c ∈ t, pyLowerChar c = c := by
    intro c hc
    obtain ⟨b, _, hcb⟩ := hmem c hc
    rw [hcb]
    exact (normChar_fixed b).1
  have hu2h : ∀ c ∈ t, underscoreToHyphen c = c := by
    intro c hc
    obtain ⟨b, _, hcb⟩ := hmem c hc
    rw [hcb]
    exact (normChar_fixed b).2
  rw [htdef, hu t, htake, pyStrip_eq_self hlead htrail, map_eq_self hlow,
    map_eq_self hu2h]

/-! ### Generic Python string operations used by both components -/

/-- Boolean prefix test: `listStartsWith pat s` holds when `pat` is an
initial segment of `s` (used to model regex literal matching,
`str.startswith` and `str.replace`). -/
def listStartsWith : PyStr → PyStr → Bool
  | [], _ => true
  | _ :: _, [] => false
  | a :: as, b :: bs => a == b && listStartsWith as bs

/-- Python substring test `pat in s`. -/
def containsSub : PyStr → PyStr → Bool
  | [], pat => pat.isEmpty
  | c :: rest, pat => listStartsWith pat (c :: rest) || containsSub rest pat

/-- Scanning loop of Python `str.replace(old, new)`, with an explicit
fuel argument so the recursion is structural and concrete instances
reduce.  Every step consumes at least one character of the remaining
input (the prefix case consumes `old.length ≥ 1`), so the fuel can reach
0 only on the empty remainder and `s.length` steps always suffice. -/
def pyReplaceFuel (old new : PyStr) : Nat → PyStr → PyStr
  | 0, s => s
  | _ + 1, [] => []
  | fuel + 1, c :: rest =>
    if 1 ≤ old.length ∧ listStartsWith old (c :: rest) then
      new ++ pyReplaceFuel old new fuel (rest.drop (old.length - 1))
    else
      c :: pyReplaceFuel old new fuel rest

/-- Python `str.replace(old, new)`: replace all non-overlapping
occurrences of `old`, scanning left to right.  The embedded code never
calls it with an empty `old`; that case is modelled as the identity. -/
def pyReplace (s old new : PyStr) : PyStr := pyReplaceFuel old new s.length s

/-! ### Dependency fetcher (`fetch_pypi_metadata`,
`extract_dependencies_from_metadata`) -/

/-- Model of the PyPI JSON metadata as consumed by the extractor: whether
the response dict is truthy (nonempty), whether it has an `"info"` key, and
the `requires_dist` list under `"info"`.  A missing or null `requires_dist`
is modelled as the empty list, which the source treats identically. -/
structure Metadata where
  truthy : Bool
  hasInfo : Bool
  requiresDist : List PyStr
deriving DecidableEq, Repr

/-- The `for req in requires_dist` loop of
`extract_dependencies_from_metadata`: skip conditional dependencies
(containing `";"` or `"extra =="`), normalize the rest, keep non-empty
names. -/
def extractDepsLoop : List PyStr → List PyStr
  | [] => []
  | req :: rest =>
    if containsSub req (pyOfString ";") || containsSub req (pyOfString "extra ==") then
      extractDepsLoop rest
    else if (normalizePackageName req).isEmpty then
      extractDepsLoop rest
    else
      normalizePackageName req :: extractDepsLoop rest

/-- Embedding of `extract_dependencies_from_metadata`. -/
def extractDependenciesFromMetadata (metadata : Metadata) : List PyStr :=
  if !metadata.truthy || !metadata.hasInfo then []
  else if metadata.requiresDist.isEmpty then []
  else extractDepsLoop metadata.requiresDist

/-- Outcome of one HTTP GET against the registry endpoint. -/
inductive HttpResult where
  | ok (status : Nat) (body : Metadata)
  | exn
deriving DecidableEq, Repr

/-- The `for attempt in range(retries)` loop of `fetch_pypi_metadata`:
a 404 returns `None` immediately; a status in [400, 600) raises inside
`raise_for_status` and is retried (with backoff, irrelevant here) unless
this was the last attempt; any other response is returned.  Falling off
the loop (also when `retries = 0`) returns `None`. -/
def fetchPypiLoop (respond : Nat → HttpResult) (retries attempt : Nat) : Option Metadata :=
  if attempt < retries then
    match respond attempt with
    | .ok status body =>
      if status = 404 then none
      else if 400 ≤ status ∧ status < 600 then
        if attempt < retries - 1 then fetchPypiLoop respond retries (attempt + 1) else none
      else some body
    | .exn =>
      if attempt < retries - 1 then fetchPypiLoop respond retries (attempt + 1) else none
  else none
termination_by retries - attempt
decreasing_by
· omega
· omega

/-- Embedding of `fetch_pypi_metadata`, parameterized by the per-attempt
response oracle. -/
def fetchPypiMetadata (respond : Nat → HttpResult) (retries : Nat) : Option Metadata :=
  fetchPypiLoop respond retries 0

/-! ### Graph builder (`build_dependency_graph`) -/

/-- State of the breadth-first work-queue traversal of
`build_dependency_graph`.  `graph` is the insertion-ordered dict
`dependency_graph` (its set values stored as deduplicated lists), `visited`
the visited set (in insertion order), `queue` the `to_process` list.
`fetchLog` and `enqueueLog` are ghost instrumentation recording every
fetch performed and every item ever placed on the queue; they do not
influence the computation. -/
structure BuildState where
  graph : List (PyStr × List PyStr)
  visited : List PyStr
  queue : List (PyStr × Nat)
  fetchLog : List PyStr
  enqueueLog : List PyStr
deriving DecidableEq, Repr

/-- Body of the `while to_process:` loop of `build_dependency_graph`, for
a popped queue entry `(pkgSpec, depth)` and remaining queue `rest`:
normalize; skip if visited; skip if a positive depth bound has been
reached; otherwise mark visited, fetch, record `graph[name] = set(deps)`
(an empty set when the fetch failed or the metadata dict is falsy), and
enqueue each not-yet-visited dependency at `depth + 1`. -/
def buildStep (fetch : PyStr → Option Metadata) (maxDepth : Nat)
    (pkgSpec : PyStr) (depth : Nat) (rest : List (PyStr × Nat))
    (st : BuildState) : BuildState :=
  if normalizePackageName pkgSpec ∈ st.visited then
    { st with queue := rest }
  else if 0 < maxDepth ∧ maxDepth ≤ depth then
    { st with queue := rest }
  else
    match fetch (normalizePackageName pkgSpec) with
    | none =>
      { st with
        graph := st.graph ++ [(normalizePackageName pkgSpec, [])]
        visited := st.visited ++ [normalizePackageName pkgSpec]
        queue := rest
        fetchLog := st.fetchLog ++ [normalizePackageName pkgSpec] }
    | some metadata =>
      if !metadata.truthy then
        { st with
          graph := st.graph ++ [(normalizePackageName pkgSpec, [])]
          visited := st.visited ++ [normalizePackageName pkgSpec]
          queue := rest
          fetchLog := st.fetchLog ++ [normalizePackageName pkgSpec] }
      else
        { graph := st.graph ++
            [(normalizePackageName pkgSpec,
              (extractDependenciesFromMetadata metadata).dedup)]
          visited := st.visited ++ [normalizePackageName pkgSpec]
          queue := rest ++
            ((extractDependenciesFromMetadata metadata).filter (fun dep =>
              decide (dep ∉ st.visited ++ [normalizePackageName pkgSpec]))).map
              (fun dep => (dep, depth + 1))
          fetchLog := st.fetchLog ++ [normalizePackageName pkgSpec]
          enqueueLog := st.enqueueLog ++
            (extractDependenciesFromMetadata metadata).filter (fun dep =>
              decide (dep ∉ st.visited ++ [normalizePackageName pkgSpec])) }

/-- One fuel-bounded run of the `while to_process:` loop of
`build_dependency_graph`.  The Python loop has no fuel and relies on the
registry being finite; `none` reports only that the fuel ran out. -/
def buildLoop (fetch : PyStr → Option Metadata) (maxDepth : Nat) :
    Nat → BuildState → Option BuildState
  | 0, _ => none
  | fuel + 1, st =>
    match st.queue with
    | [] => some st
    | (pkgSpec, depth) :: rest =>
      buildLoop fetch maxDepth fuel (buildStep fetch maxDepth pkgSpec depth rest st)

/-- Embedding of `build_dependency_graph`.  `fetch` abstracts
`fetch_pypi_metadata`; the `include_optional` and `cache_dir` parameters of
the source signature are never used in its body and are omitted.
`maxDepth = 0` means unlimited. -/
def buildDependencyGraph (fetch : PyStr → Option Metadata)
    (rootDependencies : List PyStr) (maxDepth : Nat) (fuel : Nat) :
    Option BuildState :=
  buildLoop fetch maxDepth fuel
    { graph := []
      visited := []
      queue := rootDependencies.map (fun pkg => (pkg, 0))
      fetchLog := []
      enqueueLog := rootDependencies }

/-! ### NetworkX graph construction (`categorize_package`,
`create_networkx_graph`) -/

/-- The module-level `PACKAGE_CATEGORIES` dict, in insertion order. -/
def PACKAGE_CATEGORIES : List (PyStr × List PyStr) :=
  [ (pyOfString "ml",
      [pyOfString "torch", pyOfString "pytorch", pyOfString "tensorflow",
        pyOfString "keras", pyOfString "scikit-learn", pyOfString "sklearn",
        pyOfString "sleap", pyOfString "sleap-nn", pyOfString "sleap-io"]),
    (pyOfString "scientific",
      [pyOfString "numpy", pyOfString "scipy", pyOfString "pandas",
        pyOfString "sympy", pyOfString "statsmodels",
        pyOfString "scikit-image", pyOfString "skimage"]),
    (pyOfString "data",
      [pyOfString "pillow", pyOfString "pil", pyOfString "h5py",
        pyOfString "opencv-python", pyOfString "cv2", pyOfString "imageio",
        pyOfString "tifffile", pyOfString "zarr"]),
    (pyOfString "visualization",
      [pyOfString "matplotlib", pyOfString "seaborn", pyOfString "plotly",
        pyOfString "bokeh", pyOfString "altair", pyOfString "pyqtgraph"]),
    (pyOfString "utilities",
      [pyOfString "packaging", pyOfString "typing-extensions",
        pyOfString "importlib-metadata", pyOfString "setuptools",
        pyOfString "wheel", pyOfString "pip"]) ]

/-- Embedding of `categorize_package`: first category (in dict order) one
of whose entries occurs as a substring of the lowercased name; otherwise
the heuristic fallback, which returns "utilities" on both branches exactly
as the source does. -/
def categorizePackage (package : PyStr) : PyStr :=
  let packageLower := package.map pyLowerChar
  match PACKAGE_CATEGORIES.find? (fun cat => cat.2.any (fun pkg => containsSub packageLower pkg)) with
  | some cat => cat.1
  | none =>
    if [pyOfString "py", pyOfString "lib", pyOfString "python-",
        pyOfString "types-", pyOfString "typing-"].any
        (fun pre => containsSub packageLower pre) then
      pyOfString "utilities"
    else
      pyOfString "utilities"

/-- NetworkX `DiGraph` model: nodes carry the `(category, is_root)`
attributes assigned by `create_networkx_graph`. -/
structure PackageDiGraph where
  nodes : List (PyStr × PyStr × Bool)
  edges : List (PyStr × PyStr)
deriving DecidableEq, Repr

/-- Embedding of `create_networkx_graph`: one node per dict key, and an
edge `(package, dep)` for every dependency that is itself a key
(`if dep in dependency_graph`). -/
def createNetworkxGraph (dependencyGraph : List (PyStr × List PyStr))
    (rootPackage : PyStr) : PackageDiGraph :=
  { nodes := dependencyGraph.map (fun entry =>
      (entry.1, categorizePackage entry.1,
        decide (entry.1.map pyLowerChar = rootPackage.map pyLowerChar)))
    edges := (dependencyGraph.map (fun entry =>
      (entry.2.filter (fun dep => decide (dep ∈ dependencyGraph.map Prod.fst))).map
        (fun dep => (entry.1, dep)))).flatten }

/-! ### Claim C9 -/

/-- C9: the package-name normalization function is idempotent — for every
input string, `normalize(normalize(s)) = normalize(s)`. -/
theorem claim_C9_normalize_idempotent (s : PyStr) :
    normalizePackageName (normalizePackageName s) = normalizePackageName s :=
  normalizePackageName_idem s

/-! ### Generic facts about the traversal loop -/

/-- Any predicate preserved by the loop body holds at the end of a
completed run, and a completed run has an empty queue. -/
lemma buildLoop_preserves {fetch : PyStr → Option Metadata} {maxDepth : Nat}
    {P : BuildState → Prop}
    (hstep : ∀ pkgSpec depth rest st, P st → st.queue = (pkgSpec, depth) :: rest →
      P (buildStep fetch maxDepth pkgSpec depth rest st)) :
    ∀ fuel st st', P st → buildLoop fetch maxDepth fuel st = some st' →
      P st' ∧ st'.queue = [] := by
  intro fuel
  induction fuel with
  | zero =>
    intro st st' _ h
    simp [buildLoop] at h
  | succ fuel ih =>
    intro st st' hP h
    rw [buildLoop] at h
    cases hq : st.queue with
    | nil =>
      rw [hq] at h
      simp only [Option.some.injEq] at h
      rw [← h]
      exact ⟨hP, hq⟩
    | cons hd tl =>
      obtain ⟨s, d⟩ := hd
      rw [hq] at h
      exact ih _ _ (hstep s d tl st hP hq) h

/-! ### The depth-bound scenario (claims C1 and C6) -/

/-- Dependency oracle for the depth-bound scenario of the spec: `a`
depends on `b` and `c`, `b` depends on `d`, everything else has no
dependencies. -/
def fetchABCD (name : PyStr) : Option Metadata :=
  if name = pyOfString "a" then some ⟨true, true, [pyOfString "b", pyOfString "c"]⟩
  else if name = pyOfString "b" then some ⟨true, true, [pyOfString "d"]⟩
  else some ⟨true, true, []⟩

/-- C1 counterexample: with `max_depth = 1` and root `a`, where `a`
depends on `{b, c}` and `b` on `{d}`, the resulting graph's key set is
exactly `{a}` — contrary to the claimed `{a, b, c}`, the depth-skipped
packages `b` and `c` are never recorded as keys. -/
theorem claim_C1_counterexample :
    (buildDependencyGraph fetchABCD [pyOfString "a"] 1 10).map
      (fun st => st.graph.map Prod.fst) = some [pyOfString "a"] ∧
    pyOfString "b" ∉ [pyOfString "a"] := by
  constructor
  · decide
  · decide

/-- C1 amended: in the same scenario the graph is exactly
`{a : {b, c}}` (one key, `a`), and only `a` is ever fetched — `b`, `c`
and `d` are never visited, because a package whose depth has reached the
positive bound is skipped before being recorded. -/
theorem claim_C1_amended :
    (buildDependencyGraph fetchABCD [pyOfString "a"] 1 10).map
      (fun st => (st.graph, st.fetchLog)) =
    some ([(pyOfString "a", [pyOfString "b", pyOfString "c"])], [pyOfString "a"]) := by
  decide

/-- C6 counterexample: in the depth-bound scenario the fetcher is invoked
once, while three distinct normalized names (`a`, `b`, `c`) were enqueued
— the claimed equality fails for depth-bounded runs. -/
theorem claim_C6_counterexample :
    (buildDependencyGraph fetchABCD [pyOfString "a"] 1 10).map
      (fun st => (st.fetchLog.length,
        ((st.enqueueLog.map normalizePackageName).dedup).length)) =
    some (1, 3) ∧ (1 : Nat) ≠ 3 := by
  constructor
  · decide
  · decide

/-! ### Invariants of the traversal -/

/-- The fetch log coincides with the visited list, which has no
duplicates: `visited.add` and the fetch happen together, guarded by the
membership test. -/
def VisitInv (st : BuildState) : Prop :=
  st.fetchLog = st.visited ∧ st.visited.Nodup

lemma nodup_append_singleton {α : Type} {l : List α} {x : α}
    (hl : l.Nodup) (hx : x ∉ l) : (l ++ [x]).Nodup := by
  rw [List.nodup_append]
  refine ⟨hl, List.nodup_singleton x, ?_⟩
  intro a ha hmem
  simp only [List.mem_singleton] at hmem
  exact hx (hmem ▸ ha)

lemma buildStep_visitInv {fetch : PyStr → Option Metadata} {maxDepth : Nat}
    {pkgSpec : PyStr} {depth : Nat} {rest : List (PyStr × Nat)}
    {st : BuildState} (h : VisitInv st) :
    VisitInv (buildStep fetch maxDepth pkgSpec depth rest st) := by
  obtain ⟨h1, h2⟩ := h
  unfold buildStep
  split_ifs with hv hd
  · exact ⟨h1, h2⟩
  · exact ⟨h1, h2⟩
  · cases hf : fetch (normalizePackageName pkgSpec) with
    | none => exact ⟨by simp [h1], nodup_append_singleton h2 hv⟩
    | some metadata =>
      dsimp only
      split_ifs with ht
      · exact ⟨by simp [h1], nodup_append_singleton h2 hv⟩
      · exact ⟨by simp [h1], nodup_append_singleton h2 hv⟩

/-- The graph mapping only grows during the traversal. -/
lemma buildStep_graph_mono {fetch : PyStr → Option Metadata} {maxDepth : Nat}
    {pkgSpec : PyStr} {depth : Nat} {rest : List (PyStr × Nat)}
    {st : BuildState} {e : PyStr × List PyStr} (h : e ∈ st.graph) :
    e ∈ (buildStep fetch maxDepth pkgSpec depth rest st).graph := by
  unfold buildStep
  split_ifs with hv hd
  · exact h
  · exact h
  · cases hf : fetch (normalizePackageName pkgSpec) with
    | none => exact List.mem_append_left _ h
    | some metadata =>
      dsimp only
      split_ifs with ht
      · exact List.mem_append_left _ h
      · exact List.mem_append_left _ h

/-- Every name in the output of the requires-dist loop is a normalizer
output, hence a fixpoint of the normalizer. -/
lemma extractDepsLoop_normalized :
    ∀ (l : List PyStr) (d : PyStr), d ∈ extractDepsLoop l →
      normalizePackageName d = d := by
  intro l
  induction l with
  | nil =>
    intro d hd
    simp [extractDepsLoop] at hd
  | cons req rest ih =>
    intro d hd
    unfold extractDepsLoop at hd
    split_ifs at hd with h1 h2
    · exact ih d hd
    · exact ih d hd
    · rcases List.mem_cons.mp hd with h | h
      · rw [h]
        exact normalizePackageName_idem req
      · exact ih d h

lemma extractDeps_normalized {metadata : Metadata} {d : PyStr}
    (h : d ∈ extractDependenciesFromMetadata metadata) :
    normalizePackageName d = d := by
  unfold extractDependenciesFromMetadata at h
  split_ifs at h with h1 h2
  · simp at h
  · simp at h
  · exact extractDepsLoop_normalized _ d h

/-- Every key of the graph, and every element of every stored dependency
set, is a fixpoint of the normalizer. -/
def GraphNormalized (st : BuildState) : Prop :=
  ∀ e ∈ st.graph, normalizePackageName e.1 = e.1 ∧
    ∀ d ∈ e.2, normalizePackageName d = d

lemma buildStep_graphNormalized {fetch : PyStr → Option Metadata} {maxDepth : Nat}
    {pkgSpec : PyStr} {depth : Nat} {rest : List (PyStr × Nat)}
    {st : BuildState} (h : GraphNormalized st) :
    GraphNormalized (buildStep fetch maxDepth pkgSpec depth rest st) := by
  unfold buildStep
  split_ifs with hv hd
  · exact h
  · exact h
  · cases hf : fetch (normalizePackageName pkgSpec) with
    | none =>
      intro e he
      rcases List.mem_append.mp he with he | he
      · exact h e he
      · simp only [List.mem_singleton] at he
        rw [he]
        exact ⟨normalizePackageName_idem _, by simp⟩
    | some metadata =>
      dsimp only
      split_ifs with ht
      · intro e he
        rcases List.mem_append.mp he with he | he
        · exact h e he
        · simp only [List.mem_singleton] at he
          rw [he]
          exact ⟨normalizePackageName_idem _, by simp⟩
      · intro e he
        rcases List.mem_append.mp he with he | he
        · exact h e he
        · simp only [List.mem_singleton] at he
          rw [he]
          refine ⟨normalizePackageName_idem _, ?_⟩
          intro d hd
          exact extractDeps_normalized (List.mem_dedup.mp hd)

/-- The normalized enqueue log covers exactly the visited set together
with the normalized names still on the queue. -/
def EnqInv (st : BuildState) : Prop :=
  ∀ n, n ∈ st.enqueueLog.map normalizePackageName ↔
    n ∈ st.visited ∨ n ∈ st.queue.map (fun q => normalizePackageName q.1)

lemma buildStep_enqInv {fetch : PyStr → Option Metadata}
    {pkgSpec : PyStr} {depth : Nat} {rest : List (PyStr × Nat)}
    {st : BuildState} (hq : st.queue = (pkgSpec, depth) :: rest)
    (h : EnqInv st) : EnqInv (buildStep fetch 0 pkgSpec depth rest st) := by
  unfold buildStep
  split_ifs with hv hd
  · intro n
    have hn := h n
    rw [hq] at hn
    simp only [List.map_cons, List.mem_cons] at hn
    constructor
    · intro hmem
      rcases hn.mp hmem with h1 | h1 | h1
      · exact Or.inl h1
      · exact Or.inl (h1 ▸ hv)
      · exact Or.inr h1
    · intro hmem
      rcases hmem with h1 | h1
      · exact hn.mpr (Or.inl h1)
      · exact hn.mpr (Or.inr (Or.inr h1))
  · exact absurd hd (by omega)
  · cases hf : fetch (normalizePackageName pkgSpec) with
    | none =>
      intro n
      have hn := h n
      rw [hq] at hn
      simp only [List.map_cons, List.mem_cons, List.mem_append,
        List.mem_singleton] at hn ⊢
      tauto
    | some metadata =>
      dsimp only
      split_ifs with ht
      · intro n
        have hn := h n
        rw [hq] at hn
        simp only [List.map_cons, List.mem_cons, List.mem_append,
          List.mem_singleton] at hn ⊢
        tauto
      · intro n
        have hn := h n
        rw [hq] at hn
        simp only [List.map_cons, List.mem_cons, List.mem_append,
          List.mem_singleton, List.map_append, List.map_map,
          Function.comp] at hn ⊢
        tauto

/-! ### Claims C6 and C10 -/

/-- C6 amended: (a) in every run, no normalized package name is ever
fetched twice (the fetch log has no duplicates); (b) in a completed run
with no positive depth bound (`max_depth = 0`), the number of fetcher
invocations equals the number of distinct normalized names ever enqueued.
(With a positive bound, names enqueued at the bound are skipped without
being fetched, so the equality can fail — see the counterexample.) -/
theorem claim_C6_amended :
    (∀ (fetch : PyStr → Option Metadata) (roots : List PyStr)
        (maxDepth fuel : Nat) (st' : BuildState),
      buildDependencyGraph fetch roots maxDepth fuel = some st' →
      st'.fetchLog.Nodup) ∧
    (∀ (fetch : PyStr → Option Metadata) (roots : List PyStr)
        (fuel : Nat) (st' : BuildState),
      buildDependencyGraph fetch roots 0 fuel = some st' →
      st'.fetchLog.length =
        ((st'.enqueueLog.map normalizePackageName).dedup).length) := by
  constructor
  · intro fetch roots maxDepth fuel st' h
    unfold buildDependencyGraph at h
    have hres := buildLoop_preserves (P := VisitInv)
      (fun _ _ _ _ hP _ => buildStep_visitInv hP) fuel _ st'
      ⟨rfl, List.nodup_nil⟩ h
    rw [hres.1.1]
    exact hres.1.2
  · intro fetch roots fuel st' h
    unfold buildDependencyGraph at h
    have hres := buildLoop_preserves (P := fun st => VisitInv st ∧ EnqInv st)
      (fun s d r stp hP hqp =>
        ⟨buildStep_visitInv hP.1, buildStep_enqInv hqp hP.2⟩) fuel _ st'
      ⟨⟨rfl, List.nodup_nil⟩, by
        intro n
        simp [List.map_map, Function.comp]⟩ h
    obtain ⟨⟨⟨hfv, hnd⟩, henq⟩, hqnil⟩ := hres
    have hmem : ∀ n, n ∈ (st'.enqueueLog.map normalizePackageName).dedup ↔
        n ∈ st'.visited := by
      intro n
      rw [List.mem_dedup]
      have hn := henq n
      rw [hqnil] at hn
      simpa using hn
    have hperm : List.Perm ((st'.enqueueLog.map normalizePackageName).dedup)
        st'.visited :=
      (List.perm_ext_iff_of_nodup (List.nodup_dedup _) hnd).mpr hmem
    rw [hfv]
    exact hperm.length_eq.symm

/-- C6 amended witness. -/
theorem claim_C6_amended_witness :
    BuildState.fetchLog ⟨[(pyOfString "a", [pyOfString "b", pyOfString "c"]),
      (pyOfString "b", [pyOfString "d"]), (pyOfString "c", []),
      (pyOfString "d", [])],
      [pyOfString "a", pyOfString "b", pyOfString "c", pyOfString "d"], [],
      [pyOfString "a", pyOfString "b", pyOfString "c", pyOfString "d"],
      [pyOfString "a", pyOfString "b", pyOfString "c", pyOfString "d"]⟩ |>.Nodup :=
  claim_C6_amended.1 fetchABCD [pyOfString "a"] 0 10 _ (by decide)

/-- C10: every key of the dependency graph returned by the builder, and
every element of every stored dependency set, is a fixpoint of the
normalization function, so keys and dependency names can be compared
without re-normalizing. -/
theorem claim_C10_graph_normalized (fetch : PyStr → Option Metadata)
    (roots : List PyStr) (maxDepth fuel : Nat) (st' : BuildState)
    (h : buildDependencyGraph fetch roots maxDepth fuel = some st') :
    ∀ e ∈ st'.graph, normalizePackageName e.1 = e.1 ∧
      ∀ d ∈ e.2, normalizePackageName d = d := by
  unfold buildDependencyGraph at h
  have hres := buildLoop_preserves (P := GraphNormalized)
    (fun _ _ _ _ hP _ => buildStep_graphNormalized hP) fuel _ st'
    (by intro e he; simp at he) h
  exact hres.1

/-- C10 witness: the name `b`, stored in the graph of the concrete
scenario run, is a normalizer fixpoint. -/
theorem claim_C10_witness :
    normalizePackageName (pyOfString "b") = pyOfString "b" :=
  (claim_C10_graph_normalized fetchABCD [pyOfString "a"] 0 10
    ⟨[(pyOfString "a", [pyOfString "b", pyOfString "c"]),
      (pyOfString "b", [pyOfString "d"]), (pyOfString "c", []),
      (pyOfString "d", [])],
      [pyOfString "a", pyOfString "b", pyOfString "c", pyOfString "d"], [],
      [pyOfString "a", pyOfString "b", pyOfString "c", pyOfString "d"],
      [pyOfString "a", pyOfString "b", pyOfString "c", pyOfString "d"]⟩
    (by decide)
    (pyOfString "a", [pyOfString "b", pyOfString "c"]) (by decide)).2
    (pyOfString "b") (by decide)

/-! ### Claim C8 -/

lemma fetchPypiLoop_none_of_failures (respond : Nat → HttpResult) (retries : Nat) :
    ∀ k attempt, retries - attempt ≤ k →
      (∀ i, attempt ≤ i → i < retries →
        respond i = HttpResult.exn ∨
        ∃ s body, respond i = HttpResult.ok s body ∧ 400 ≤ s ∧ s < 600) →
      fetchPypiLoop respond retries attempt = none := by
  intro k
  induction k with
  | zero =>
    intro attempt hk h
    rw [fetchPypiLoop, if_neg (by omega)]
  | succ k ih =>
    intro attempt hk h
    rw [fetchPypiLoop]
    by_cases ha : attempt < retries
    · rw [if_pos ha]
      rcases h attempt le_rfl ha with hr | ⟨s, body, hr, hs1, hs2⟩
      · rw [hr]
        dsimp only
        split_ifs with h2
        · exact ih (attempt + 1) (by omega) (fun i hi1 hi2 => h i (by omega) hi2)
        · rfl
      · rw [hr]
        dsimp only
        split_ifs with h404 herr h2
        · rfl
        · exact ih (attempt + 1) (by omega) (fun i hi1 hi2 => h i (by omega) hi2)
        · rfl
        · exact absurd ⟨hs1, hs2⟩ herr
    · rw [if_neg ha]

/-- C8: a 404 response makes the fetcher return the non-fatal `None`
immediately; exhausting the bounded retries on other failures (network
errors or 4xx/5xx statuses) also returns `None`; and on a failed fetch the
graph builder records the package as a leaf mapping to the empty
dependency set and goes on to process the rest of the queue to
completion, rather than aborting. -/
theorem claim_C8_failure_handling :
    (∀ (respond : Nat → HttpResult) (body : Metadata) (retries : Nat),
      1 ≤ retries → respond 0 = HttpResult.ok 404 body →
      fetchPypiMetadata respond retries = none) ∧
    (∀ (respond : Nat → HttpResult) (retries : Nat),
      (∀ i, i < retries →
        respond i = HttpResult.exn ∨
        ∃ s body, respond i = HttpResult.ok s body ∧ 400 ≤ s ∧ s < 600) →
      fetchPypiMetadata respond retries = none) ∧
    (∀ (fetch : PyStr → Option Metadata) (maxDepth fuel : Nat)
        (st st' : BuildState) (pkgSpec : PyStr) (depth : Nat)
        (rest : List (PyStr × Nat)),
      st.queue = (pkgSpec, depth) :: rest →
      normalizePackageName pkgSpec ∉ st.visited →
      ¬ (0 < maxDepth ∧ maxDepth ≤ depth) →
      fetch (normalizePackageName pkgSpec) = none →
      buildLoop fetch maxDepth (fuel + 1) st = some st' →
      (normalizePackageName pkgSpec, ([] : List PyStr)) ∈ st'.graph ∧
        st'.queue = []) := by
  refine ⟨?_, ?_, ?_⟩
  · intro respond body retries h1 h0
    unfold fetchPypiMetadata
    rw [fetchPypiLoop, if_pos (by omega), h0]
    dsimp only
    rw [if_pos rfl]
  · intro respond retries h
    unfold fetchPypiMetadata
    exact fetchPypiLoop_none_of_failures respond retries retries 0 (by omega)
      (fun i _ hi2 => h i hi2)
  · intro fetch maxDepth fuel st st' pkgSpec depth rest hq hv hd hf hrun
    rw [buildLoop, hq] at hrun
    have hstepg : (normalizePackageName pkgSpec, ([] : List PyStr)) ∈
        (buildStep fetch maxDepth pkgSpec depth rest st).graph := by
      unfold buildStep
      rw [if_neg hv, if_neg hd, hf]
      simp
    exact buildLoop_preserves
      (P := fun s => (normalizePackageName pkgSpec, ([] : List PyStr)) ∈ s.graph)
      (fun _ _ _ _ hP _ => buildStep_graph_mono hP) fuel _ st' hstepg hrun

/-- C8 witness. -/
theorem claim_C8_witness :
    fetchPypiMetadata (fun _ => HttpResult.ok 404 ⟨false, false, []⟩) 3 = none ∧
    fetchPypiMetadata (fun _ => HttpResult.exn) 3 = none ∧
    ((normalizePackageName (pyOfString "a"), ([] : List PyStr)) ∈
      BuildState.graph ⟨[(pyOfString "a", [])], [pyOfString "a"], [],
        [pyOfString "a"], [pyOfString "a"]⟩ ∧
      BuildState.queue ⟨[(pyOfString "a", [])], [pyOfString "a"], [],
        [pyOfString "a"], [pyOfString "a"]⟩ = []) :=
  ⟨claim_C8_failure_handling.1 (fun _ => HttpResult.ok 404 ⟨false, false, []⟩)
      ⟨false, false, []⟩ 3 (by omega) rfl,
    claim_C8_failure_handling.2.1 (fun _ => HttpResult.exn) 3
      (fun i _ => Or.inl rfl),
    claim_C8_failure_handling.2.2 (fun _ => none) 0 1
      ⟨[], [], [(pyOfString "a", 0)], [], [pyOfString "a"]⟩
      ⟨[(pyOfString "a", [])], [pyOfString "a"], [], [pyOfString "a"],
        [pyOfString "a"]⟩
      (pyOfString "a") 0 [] rfl (by decide) (by decide) rfl (by decide)⟩

/-! ### Claim C7 -/

/-- C7: in the graph derived by `create_networkx_graph`, an edge `(p, d)`
exists if and only if `d` is in `dependency_graph[p]` and `d` is itself a
key of the dependency graph; the node set is exactly the key set, so
dangling dependencies produce neither an edge nor a node.  The concrete
example `a depends on b and x, b on nothing, x absent` yields nodes
`[a, b]` and the single edge `a to b`. -/
theorem claim_C7_edge_iff (dependencyGraph : List (PyStr × List PyStr))
    (rootPackage p d : PyStr) :
    ((p, d) ∈ (createNetworkxGraph dependencyGraph rootPackage).edges ↔
      ∃ deps, (p, deps) ∈ dependencyGraph ∧ d ∈ deps ∧
        d ∈ dependencyGraph.map Prod.fst) ∧
    (createNetworkxGraph dependencyGraph rootPackage).nodes.map
        (fun node => node.1) = dependencyGraph.map Prod.fst ∧
    (createNetworkxGraph
        [(pyOfString "a", [pyOfString "b", pyOfString "x"]),
          (pyOfString "b", [])] (pyOfString "sleap")).nodes.map
        (fun node => node.1) = [pyOfString "a", pyOfString "b"] ∧
    (createNetworkxGraph
        [(pyOfString "a", [pyOfString "b", pyOfString "x"]),
          (pyOfString "b", [])] (pyOfString "sleap")).edges =
      [(pyOfString "a", pyOfString "b")] := by
  refine ⟨?_, ?_, by decide, by decide⟩
  · constructor
    · intro hmem
      unfold createNetworkxGraph at hmem
      obtain ⟨l, hl, hpd⟩ := List.mem_flatten.mp hmem
      obtain ⟨entry, hentry, hfl⟩ := List.mem_map.mp hl
      rw [← hfl] at hpd
      obtain ⟨dep, hdep, heq⟩ := List.mem_map.mp hpd
      have hfil := List.mem_filter.mp hdep
      have hp : entry.1 = p := congrArg Prod.fst heq
      have hdd : dep = d := congrArg Prod.snd heq
      have hkey : d ∈ dependencyGraph.map Prod.fst := by
        rw [← hdd]
        exact of_decide_eq_true hfil.2
      refine ⟨entry.2, ?_, hdd ▸ hfil.1, hkey⟩
      rw [← hp]
      exact hentry
    · rintro ⟨deps, hmem, hd, hkey⟩
      unfold createNetworkxGraph
      apply List.mem_flatten.mpr
      refine ⟨(deps.filter (fun dep =>
        decide (dep ∈ dependencyGraph.map Prod.fst))).map (fun dep => (p, dep)),
        ?_, ?_⟩
      · exact List.mem_map.mpr ⟨(p, deps), hmem, rfl⟩
      · exact List.mem_map.mpr ⟨d, List.mem_filter.mpr
          ⟨hd, decide_eq_true hkey⟩, rfl⟩
  · unfold createNetworkxGraph
    simp [List.map_map, Function.comp]

/-! ### Terraform parser: data model (`parser.py`) -/

/-- Ingress rule record built by the security-group extractor (a Python
dict with optional integer and string fields). -/
structure IngressRule where
  fromPort : Option Nat
  toPort : Option Nat
  protocol : Option PyStr
deriving DecidableEq, Repr

/-- Attribute values stored by the extractor: strings, integers, lists of
strings, or ingress-rule lists. -/
inductive AttrValue where
  | str (v : PyStr)
  | num (v : Nat)
  | strList (v : List PyStr)
  | rules (v : List IngressRule)
deriving DecidableEq, Repr

/-- Embedding of the `TerraformResource` dataclass with its field
defaults. -/
structure TerraformResource where
  resourceType : PyStr
  name : PyStr
  attributes : List (PyStr × AttrValue) := []
  dependencies : List PyStr := []
  isConditional : Bool := false
  condition : PyStr := []
  tier : PyStr := pyOfString "infrastructure"
deriving DecidableEq, Repr

/-- Embedding of the `ParsedTerraformConfig` dataclass; `locals` is the
insertion-ordered dict of parsed local variables. -/
structure ParsedTerraformConfig where
  ec2Instances : List TerraformResource := []
  securityGroups : List TerraformResource := []
  albs : List TerraformResource := []
  eips : List TerraformResource := []
  route53Records : List TerraformResource := []
  lambdaFunctions : List TerraformResource := []
  cloudwatchLogs : List TerraformResource := []
  iamRoles : List TerraformResource := []
  iamPolicies : List TerraformResource := []
  targetGroups : List TerraformResource := []
  subscriptionFilters : List TerraformResource := []
  tier : PyStr := pyOfString "infrastructure"
  locals : List (PyStr × PyStr) := []
deriving DecidableEq, Repr

/-- Embedding of `ParsedTerraformConfig.get_all_resources`: the source
concatenates exactly these ten collections, in this order —
`subscription_filters` is not included. -/
def ParsedTerraformConfig.getAllResources (c : ParsedTerraformConfig) :
    List TerraformResource :=
  c.ec2Instances ++ c.securityGroups ++ c.albs ++ c.eips ++
    c.route53Records ++ c.lambdaFunctions ++ c.cloudwatchLogs ++
    c.iamRoles ++ c.iamPolicies ++ c.targetGroups

/-! ### Regex scanners

The patterns of `parser.py` are deterministic once Python's
leftmost-match, greedy-with-backtracking semantics is unfolded on their
actual shapes, so each is embedded as a match-at-position function plus a
position scan (`re.search`) or a continue-after-match scan
(`re.finditer`). -/

/-- Match a literal at the head of the input; on success return the rest. -/
def dropLit (lit s : PyStr) : Option PyStr :=
  if listStartsWith lit s then some (s.drop lit.length) else none

/-- Regex `\s+`: at least one whitespace character, consumed greedily. -/
def dropWs1 (s : PyStr) : Option PyStr :=
  match s with
  | c :: rest => if isSpaceChar c then some (rest.dropWhile isSpaceChar) else none
  | [] => none

/-- Regex `"([^"]+)"`: a nonempty quoted capture; returns it and the rest. -/
def matchQuoted1 (s : PyStr) : Option (PyStr × PyStr) := do
  let s1 ← dropLit [34] s
  let cap := s1.takeWhile (fun c => c != 34)
  if cap.isEmpty then none
  else do
    let s2 ← dropLit [34] (s1.dropWhile (fun c => c != 34))
    some (cap, s2)

/-- The body part of every resource-block pattern.  Both body regexes of
the source — `([^}]+)` and the intended-nesting variant
`([^}]+(?:\{[^}]*\}[^}]*)*)` — match the same text: the greedy `[^}]+`
consumes up to the first `}` (or the end of input), at which point the
starred group cannot start (it needs `{`), and on the end-of-input
backtracking path no closing `}` exists at all.  Hence the capture is
always the nonempty run of characters strictly before the first `}`. -/
def matchBody (s : PyStr) : Option (PyStr × PyStr) := do
  let s1 ← dropLit [123] s
  let cap := s1.takeWhile (fun c => c != 125)
  if cap.isEmpty then none
  else do
    let s2 ← dropLit [125] (s1.dropWhile (fun c => c != 125))
    some (cap, s2)

/-- `re.search`: try the match attempt at each position, left to right.
The fuel is the input length, which suffices because the scan advances at
least one character per step. -/
def searchScan {α : Type} (attempt : PyStr → Option α) : Nat → PyStr → Option α
  | 0, _ => none
  | _ + 1, [] => none
  | fuel + 1, c :: rest =>
    match attempt (c :: rest) with
    | some r => some r
    | none => searchScan attempt fuel rest

def pySearch {α : Type} (attempt : PyStr → Option α) (s : PyStr) : Option α :=
  searchScan attempt s.length s

/-- `re.finditer`: scan positions left to right, continuing after the end
of each (non-overlapping) match.  Every successful attempt consumes at
least one character, so the input length bounds the number of steps. -/
def finditerScan {α : Type} (attempt : PyStr → Option (α × PyStr)) :
    Nat → PyStr → List α
  | 0, _ => []
  | _ + 1, [] => []
  | fuel + 1, c :: rest =>
    match attempt (c :: rest) with
    | some (m, rem) => m :: finditerScan attempt fuel rem
    | none => finditerScan attempt fuel rest

def pyFinditer {α : Type} (attempt : PyStr → Option (α × PyStr)) (s : PyStr) :
    List α :=
  finditerScan attempt s.length s

/-- One attempt of the generic block pattern of
`detect_conditional_resources`:
`resource\s+"([^"]+)"\s+"([^"]+)"\s*\{BODY\}`. -/
def matchResourceAt (s : PyStr) :
    Option ((PyStr × PyStr × PyStr) × PyStr) := do
  let s1 ← dropLit (pyOfString "resource") s
  let s2 ← dropWs1 s1
  let (rtype, s3) ← matchQuoted1 s2
  let s4 ← dropWs1 s3
  let (rname, s5) ← matchQuoted1 s4
  let (body, s6) ← matchBody (s5.dropWhile isSpaceChar)
  some ((rtype, rname, body), s6)

def findResourceBlocks (content : PyStr) : List (PyStr × PyStr × PyStr) :=
  pyFinditer matchResourceAt content

/-- One attempt of the per-kind block patterns of `parse_terraform_file`:
`resource\s+"KIND"\s+"([^"]+)"\s*\{BODY\}`. -/
def matchKindResourceAt (kind : PyStr) (s : PyStr) :
    Option ((PyStr × PyStr) × PyStr) := do
  let s1 ← dropLit (pyOfString "resource") s
  let s2 ← dropWs1 s1
  let s3 ← dropLit ([34] ++ kind ++ [34]) s2
  let s4 ← dropWs1 s3
  let (rname, s5) ← matchQuoted1 s4
  let (body, s6) ← matchBody (s5.dropWhile isSpaceChar)
  some ((rname, body), s6)

def findKindBlocks (kind content : PyStr) : List (PyStr × PyStr) :=
  pyFinditer (matchKindResourceAt kind) content

/-- One attempt of `KEY\s*=\s*"([^"]+)"`. -/
def searchKeyQuotedAt (key : PyStr) (s : PyStr) : Option PyStr := do
  let s1 ← dropLit key s
  let s2 ← dropLit [61] (s1.dropWhile isSpaceChar)
  let (cap, _) ← matchQuoted1 (s2.dropWhile isSpaceChar)
  some cap

/-- One attempt of `KEY\s*=\s*"([^"]*)"` (possibly-empty capture, used
for `filter_pattern`). -/
def searchKeyQuoted0At (key : PyStr) (s : PyStr) : Option PyStr := do
  let s1 ← dropLit key s
  let s2 ← dropLit [61] (s1.dropWhile isSpaceChar)
  let s3 ← dropLit [34] (s2.dropWhile isSpaceChar)
  let _ ← dropLit [34] (s3.dropWhile (fun c => c != 34))
  some (s3.takeWhile (fun c => c != 34))

/-- One attempt of `KEY\s*=\s*(\d+)`. -/
def searchKeyNumAt (key : PyStr) (s : PyStr) : Option Nat := do
  let s1 ← dropLit key s
  let s2 ← dropLit [61] (s1.dropWhile isSpaceChar)
  let digits := (s2.dropWhile isSpaceChar).takeWhile isDigitChar
  if digits.isEmpty then none
  else some (digits.foldl (fun acc c => acc * 10 + (c - 48)) 0)

/-- One attempt of `KEY\s*=\s*(local\.\w+)`. -/
def searchKeyLocalRefAt (key : PyStr) (s : PyStr) : Option PyStr := do
  let s1 ← dropLit key s
  let s2 ← dropLit [61] (s1.dropWhile isSpaceChar)
  let s3 ← dropLit (pyOfString "local.") (s2.dropWhile isSpaceChar)
  let word := s3.takeWhile isWordChar
  if word.isEmpty then none else some (pyOfString "local." ++ word)

/-- One attempt of `KEY\s*=\s*(\S+)`. -/
def searchKeyNonSpaceAt (key : PyStr) (s : PyStr) : Option PyStr := do
  let s1 ← dropLit key s
  let s2 ← dropLit [61] (s1.dropWhile isSpaceChar)
  let cap := (s2.dropWhile isSpaceChar).takeWhile (fun c => !isSpaceChar c)
  if cap.isEmpty then none else some cap

/-- One attempt of `KEY\s*=\s*[^.]+\.([^.]+)\.SUFFIX` (the
`iam_instance_profile ... .name` and `role ... .arn` patterns).  Since
whitespace is itself a non-dot character, `\s*[^.]+` jointly matches the
nonempty run of non-dot characters after the `=`. -/
def searchDotRefAt (key suffix : PyStr) (s : PyStr) : Option PyStr := do
  let s1 ← dropLit key s
  let s2 ← dropLit [61] (s1.dropWhile isSpaceChar)
  let x1 := s2.takeWhile (fun c => c != 46)
  if x1.isEmpty then none
  else do
    let s3 ← dropLit [46] (s2.dropWhile (fun c => c != 46))
    let x2 := s3.takeWhile (fun c => c != 46)
    if x2.isEmpty then none
    else do
      let _ ← dropLit ([46] ++ suffix) (s3.dropWhile (fun c => c != 46))
      some x2

/-- One attempt of `KEY\s*=\s*\[([^\]]+)\]` (the
`vpc_security_group_ids` pattern; `re.findall(...)[0]` is the first
match, i.e. a search). -/
def searchBracketListAt (key : PyStr) (s : PyStr) : Option PyStr := do
  let s1 ← dropLit key s
  let s2 ← dropLit [61] (s1.dropWhile isSpaceChar)
  let s3 ← dropLit [91] (s2.dropWhile isSpaceChar)
  let cap := s3.takeWhile (fun c => c != 93)
  if cap.isEmpty then none
  else do
    let _ ← dropLit [93] (s3.dropWhile (fun c => c != 93))
    some cap

/-- Python `str.split(sep)` keeping empty fields. -/
def pySplitOn (sep : Nat) : PyStr → List PyStr
  | [] => [[]]
  | c :: rest =>
    if c == sep then [] :: pySplitOn sep rest
    else
      match pySplitOn sep rest with
      | g :: gs => (c :: g) :: gs
      | [] => [[c]]

/-- Python `str.strip('"')`: remove leading and trailing double quotes. -/
def stripQuotes (s : PyStr) : PyStr :=
  (((s.dropWhile (fun c => c == 34)).reverse).dropWhile (fun c => c == 34)).reverse

/-! ### Per-kind block extraction (`parse_terraform_file`) -/

/-- Ingress sub-block pattern `ingress\s*\{([^}]+)\}`. -/
def matchIngressAt (s : PyStr) : Option (PyStr × PyStr) := do
  let s1 ← dropLit (pyOfString "ingress") s
  matchBody (s1.dropWhile isSpaceChar)

/-- Field extraction for one ingress rule body. -/
def parseIngressRule (ingBody : PyStr) : IngressRule :=
  { fromPort := pySearch (searchKeyNumAt (pyOfString "from_port")) ingBody
    toPort := pySearch (searchKeyNumAt (pyOfString "to_port")) ingBody
    protocol := pySearch (searchKeyQuotedAt (pyOfString "protocol")) ingBody }

/-- Attribute extraction for one `aws_instance` body: `instance_type`
(quoted, else a `local.` reference), `ami`, `vpc_security_group_ids`
(first bracket list, split on commas, stripped, quote-stripped, blank
entries dropped), `iam_instance_profile` (dotted reference). -/
def parseEc2Attrs (body : PyStr) : List (PyStr × AttrValue) :=
  (match pySearch (searchKeyQuotedAt (pyOfString "instance_type")) body with
    | some v => [(pyOfString "instance_type", AttrValue.str v)]
    | none =>
      match pySearch (searchKeyLocalRefAt (pyOfString "instance_type")) body with
      | some v => [(pyOfString "instance_type", AttrValue.str v)]
      | none => []) ++
  (match pySearch (searchKeyQuotedAt (pyOfString "ami")) body with
    | some v => [(pyOfString "ami", AttrValue.str v)]
    | none => []) ++
  (match pySearch (searchBracketListAt (pyOfString "vpc_security_group_ids")) body with
    | some inner =>
      [(pyOfString "security_groups", AttrValue.strList
        (((pySplitOn 44 inner).filter (fun sg => !(pyStrip sg).isEmpty)).map
          (fun sg => stripQuotes (pyStrip sg))))]
    | none => []) ++
  (match pySearch (searchDotRefAt (pyOfString "iam_instance_profile")
      (pyOfString "name")) body with
    | some v => [(pyOfString "iam_role", AttrValue.str v)]
    | none => [])

def parseEc2Block (nameBody : PyStr × PyStr) : TerraformResource :=
  { resourceType := pyOfString "aws_instance"
    name := nameBody.1
    attributes := parseEc2Attrs nameBody.2 }

/-- Attribute extraction for one `aws_security_group` body: the list of
ingress rules, when any. -/
def parseSgAttrs (body : PyStr) : List (PyStr × AttrValue) :=
  match pyFinditer matchIngressAt body with
  | [] => []
  | rules => [(pyOfString "ingress_rules", AttrValue.rules (rules.map parseIngressRule))]

def parseSgBlock (nameBody : PyStr × PyStr) : TerraformResource :=
  { resourceType := pyOfString "aws_security_group"
    name := nameBody.1
    attributes := parseSgAttrs nameBody.2 }

def parseAlbBlock (nameBody : PyStr × PyStr) : TerraformResource :=
  { resourceType := pyOfString "aws_lb"
    name := nameBody.1
    attributes :=
      match pySearch (searchKeyQuotedAt (pyOfString "load_balancer_type")) nameBody.2 with
      | some v => [(pyOfString "type", AttrValue.str v)]
      | none => [] }

def parseEipBlock (nameBody : PyStr × PyStr) : TerraformResource :=
  { resourceType := pyOfString "aws_eip"
    name := nameBody.1
    attributes := [] }

def parseR53Block (nameBody : PyStr × PyStr) : TerraformResource :=
  { resourceType := pyOfString "aws_route53_record"
    name := nameBody.1
    attributes :=
      (match pySearch (searchKeyQuotedAt (pyOfString "type")) nameBody.2 with
        | some v => [(pyOfString "record_type", AttrValue.str v)]
        | none => []) ++
      (match pySearch (searchKeyQuotedAt (pyOfString "name")) nameBody.2 with
        | some v => [(pyOfString "domain", AttrValue.str v)]
        | none => []) }

def parseLambdaBlock (nameBody : PyStr × PyStr) : TerraformResource :=
  { resourceType := pyOfString "aws_lambda_function"
    name := nameBody.1
    attributes :=
      (match pySearch (searchKeyQuotedAt (pyOfString "function_name")) nameBody.2 with
        | some v => [(pyOfString "function_name", AttrValue.str v)]
        | none => []) ++
      (match pySearch (searchKeyQuotedAt (pyOfString "runtime")) nameBody.2 with
        | some v => [(pyOfString "runtime", AttrValue.str v)]
        | none => []) ++
      (match pySearch (searchDotRefAt (pyOfString "role") (pyOfString "arn")) nameBody.2 with
        | some v => [(pyOfString "iam_role", AttrValue.str v)]
        | none => []) }

def parseCwBlock (nameBody : PyStr × PyStr) : TerraformResource :=
  { resourceType := pyOfString "aws_cloudwatch_log_group"
    name := nameBody.1
    attributes :=
      match pySearch (searchKeyQuotedAt (pyOfString "name")) nameBody.2 with
      | some v => [(pyOfString "log_group_name", AttrValue.str v)]
      | none => [] }

def parseIamRoleBlock (nameBody : PyStr × PyStr) : TerraformResource :=
  { resourceType := pyOfString "aws_iam_role"
    name := nameBody.1
    attributes :=
      match pySearch (searchKeyQuotedAt (pyOfString "name")) nameBody.2 with
      | some v => [(pyOfString "role_name", AttrValue.str v)]
      | none => [] }

def parseIamPolicyBlock (nameBody : PyStr × PyStr) : TerraformResource :=
  { resourceType := pyOfString "aws_iam_policy"
    name := nameBody.1
    attributes :=
      match pySearch (searchKeyQuotedAt (pyOfString "name")) nameBody.2 with
      | some v => [(pyOfString "policy_name", AttrValue.str v)]
      | none => [] }

def parseTgBlock (nameBody : PyStr × PyStr) : TerraformResource :=
  { resourceType := pyOfString "aws_lb_target_group"
    name := nameBody.1
    attributes :=
      (match pySearch (searchKeyNumAt (pyOfString "port")) nameBody.2 with
        | some v => [(pyOfString "port", AttrValue.num v)]
        | none => []) ++
      (match pySearch (searchKeyQuotedAt (pyOfString "protocol")) nameBody.2 with
        | some v => [(pyOfString "protocol", AttrValue.str v)]
        | none => []) }

def parseSubFilterBlock (nameBody : PyStr × PyStr) : TerraformResource :=
  { resourceType := pyOfString "aws_cloudwatch_log_subscription_filter"
    name := nameBody.1
    attributes :=
      (match pySearch (searchKeyNonSpaceAt (pyOfString "destination_arn")) nameBody.2 with
        | some v => [(pyOfString "destination_arn", AttrValue.str v)]
        | none => []) ++
      (match pySearch (searchKeyNonSpaceAt (pyOfString "log_group_name")) nameBody.2 with
        | some v => [(pyOfString "log_group_name", AttrValue.str v)]
        | none => []) ++
      (match pySearch (searchKeyQuoted0At (pyOfString "filter_pattern")) nameBody.2 with
        | some v => [(pyOfString "filter_pattern", AttrValue.str v)]
        | none => []) }

/-- Embedding of `parse_subscription_filters`: appends every matched
`aws_cloudwatch_log_subscription_filter` block to the config. -/
def parseSubscriptionFilters (content : PyStr) (c : ParsedTerraformConfig) :
    ParsedTerraformConfig :=
  { c with subscriptionFilters := c.subscriptionFilters ++
      (findKindBlocks (pyOfString "aws_cloudwatch_log_subscription_filter")
        content).map parseSubFilterBlock }

/-! ### Locals parsing (`parse_locals_block`) -/

/-- Python dict assignment `d[k] = v` on an insertion-ordered mapping:
overwrite in place when the key exists, else append. -/
def dictInsert (k v : PyStr) (d : List (PyStr × PyStr)) : List (PyStr × PyStr) :=
  if (d.lookup k).isSome then
    d.map (fun kv => if kv.1 = k then (k, v) else kv)
  else d ++ [(k, v)]

/-- One attempt of `(\w+)\s*=\s*"([^"]+)"`. -/
def matchLocalAssignAt (s : PyStr) : Option ((PyStr × PyStr) × PyStr) := do
  let name := s.takeWhile isWordChar
  if name.isEmpty then none
  else do
    let s1 ← dropLit [61] ((s.dropWhile isWordChar).dropWhile isSpaceChar)
    let (value, rem) ← matchQuoted1 (s1.dropWhile isSpaceChar)
    some ((name, value), rem)

/-- The `\s*==\s*"([^"]+)"` tail of the comparison pattern. -/
def matchCmpTailAt (s : PyStr) : Option (PyStr × PyStr) := do
  let s1 ← dropLit (pyOfString "==") (s.dropWhile isSpaceChar)
  matchQuoted1 (s1.dropWhile isSpaceChar)

/-- Backtracking over the greedy `(\S+)` of the comparison pattern:
longest prefix first, as the regex engine does. -/
def splitEqTry (run afterRun : PyStr) : Nat → Option ((PyStr × PyStr) × PyStr)
  | 0 => none
  | k + 1 =>
    match matchCmpTailAt (run.drop (k + 1) ++ afterRun) with
    | some (cap, rem) => some ((run.take (k + 1), cap), rem)
    | none => splitEqTry run afterRun k

/-- One attempt of `(\w+)\s*=\s*(\S+)\s*==\s*"([^"]+)"`; the stored value
is the formatted string `{g2} == "{g3}"` as in the source. -/
def matchLocalCmpAt (s : PyStr) : Option ((PyStr × PyStr) × PyStr) := do
  let name := s.takeWhile isWordChar
  if name.isEmpty then none
  else do
    let s1 ← dropLit [61] ((s.dropWhile isWordChar).dropWhile isSpaceChar)
    let s2 := s1.dropWhile isSpaceChar
    let run := s2.takeWhile (fun c => !isSpaceChar c)
    if run.isEmpty then none
    else
      match splitEqTry run (s2.drop run.length) run.length with
      | some ((lhs, g3), rem) =>
        some ((name, lhs ++ pyOfString " == " ++ [34] ++ g3 ++ [34]), rem)
      | none => none

/-- Embedding of `parse_locals_block`: a first pass collecting every
`name = "value"` assignment anywhere in the file, then a second pass
collecting every `name = lhs == "value"` comparison (overwriting). -/
def parseLocalsBlock (content : PyStr) : List (PyStr × PyStr) :=
  (pyFinditer matchLocalCmpAt content).foldl
    (fun d nv => dictInsert nv.1 nv.2 d)
    ((pyFinditer matchLocalAssignAt content).foldl
      (fun d nv => dictInsert nv.1 nv.2 d) [])

/-! ### Conditional detection (`detect_conditional_resources`) -/

/-- One attempt of `count\s*=\s*(.+?)(?:\n|$)`: the capture is the run of
non-newline characters after `count\s*=\s*`.  When only whitespace
follows the `=`, Python's backtracking still produces a whitespace-only
capture (modelled as the empty capture, on which the downstream strip and
ternary test behave identically); with nothing but newlines it fails. -/
def searchCountAt (s : PyStr) : Option PyStr := do
  let s1 ← dropLit (pyOfString "count") s
  let s2 ← dropLit [61] (s1.dropWhile isSpaceChar)
  let ws := s2.takeWhile isSpaceChar
  match s2.dropWhile isSpaceChar with
  | c :: rest => some ((c :: rest).takeWhile (fun ch => ch != 10))
  | [] => if ws.any (fun c => c != 10) then some [] else none

/-- The ternary test of `detect_conditional_resources`: when the count
expression (stripped) contains both `?` and `:`, return the text strictly
before the first `?`, stripped. -/
def detectTernary (body : PyStr) : Option PyStr :=
  match pySearch searchCountAt body with
  | none => none
  | some grp =>
    if containsSub (pyStrip grp) [63] && containsSub (pyStrip grp) [58] then
      some (pyStrip ((pyStrip grp).takeWhile (fun c => c != 63)))
    else none

/-- Mark a resource conditional when its type and name match the block. -/
def markConditional (rtype rname cond : PyStr) (r : TerraformResource) :
    TerraformResource :=
  if r.resourceType = rtype ∧ r.name = rname then
    { r with isConditional := true, condition := cond }
  else r

/-- Loop body of `detect_conditional_resources` for one generic block:
when its count is ternary, mark matching resources in the six collections
the source iterates over (EC2, ALBs, Route53, Lambda, CloudWatch logs,
target groups — not security groups, EIPs, IAM or subscription
filters). -/
def detectStep (cfg : ParsedTerraformConfig) (blk : PyStr × PyStr × PyStr) :
    ParsedTerraformConfig :=
  match detectTernary blk.2.2 with
  | none => cfg
  | some cond =>
    { cfg with
      ec2Instances := cfg.ec2Instances.map (markConditional blk.1 blk.2.1 cond)
      albs := cfg.albs.map (markConditional blk.1 blk.2.1 cond)
      route53Records := cfg.route53Records.map (markConditional blk.1 blk.2.1 cond)
      lambdaFunctions := cfg.lambdaFunctions.map (markConditional blk.1 blk.2.1 cond)
      cloudwatchLogs := cfg.cloudwatchLogs.map (markConditional blk.1 blk.2.1 cond)
      targetGroups := cfg.targetGroups.map (markConditional blk.1 blk.2.1 cond) }

/-- Embedding of `detect_conditional_resources`. -/
def detectConditionalResources (content : PyStr) (c : ParsedTerraformConfig) :
    ParsedTerraformConfig :=
  (findResourceBlocks content).foldl detectStep c

/-! ### Reference resolution (`resolve_variable_references`) -/

/-- Net effect of the per-attribute body of `resolve_variable_references`
on one string value: the first (exact-reference) pass assigns the lookup
result of the name obtained by deleting every `"local."`; the second pass
then re-replaces each `local.<name>` in the ORIGINAL value, assigning
after every local, so its last assignment overwrites the first pass
whenever `locals` is nonempty. -/
def resolveAttrValue (locs : List (PyStr × PyStr)) (v : PyStr) : PyStr :=
  if locs.isEmpty then
    if listStartsWith (pyOfString "local.") v then
      match locs.lookup (pyReplace v (pyOfString "local.") []) with
      | some value => value
      | none => v
    else v
  else
    locs.foldl (fun acc nv => pyReplace acc (pyOfString "local." ++ nv.1) nv.2) v

/-- Resolution of one resource: every string attribute value goes through
the two passes, and a nonempty condition string goes through the
substring pass. -/
def resolveResource (locs : List (PyStr × PyStr)) (r : TerraformResource) :
    TerraformResource :=
  { r with
    attributes := r.attributes.map (fun kv =>
      match kv.2 with
      | AttrValue.str v => (kv.1, AttrValue.str (resolveAttrValue locs v))
      | other => (kv.1, other))
    condition :=
      if r.condition.isEmpty then r.condition
      else r.condition |> fun cond =>
        locs.foldl (fun acc nv => pyReplace acc (pyOfString "local." ++ nv.1) nv.2) cond }

/-- Embedding of `resolve_variable_references`: the resolver iterates over
`get_all_resources()`, so the ten concatenated collections are resolved
in place and `subscription_filters` is never touched. -/
def resolveVariableReferences (c : ParsedTerraformConfig) : ParsedTerraformConfig :=
  { c with
    ec2Instances := c.ec2Instances.map (resolveResource c.locals)
    securityGroups := c.securityGroups.map (resolveResource c.locals)
    albs := c.albs.map (resolveResource c.locals)
    eips := c.eips.map (resolveResource c.locals)
    route53Records := c.route53Records.map (resolveResource c.locals)
    lambdaFunctions := c.lambdaFunctions.map (resolveResource c.locals)
    cloudwatchLogs := c.cloudwatchLogs.map (resolveResource c.locals)
    iamRoles := c.iamRoles.map (resolveResource c.locals)
    iamPolicies := c.iamPolicies.map (resolveResource c.locals)
    targetGroups := c.targetGroups.map (resolveResource c.locals) }

/-! ### File and directory parsing -/

/-- Pure part of `parse_terraform_file` on decoded content: the ten
per-kind extraction passes, then locals, subscription filters,
conditional detection and reference resolution. -/
def parseTerraformContent (content : PyStr) : ParsedTerraformConfig :=
  resolveVariableReferences (detectConditionalResources content
    (parseSubscriptionFilters content
      { ec2Instances := (findKindBlocks (pyOfString "aws_instance") content).map parseEc2Block
        securityGroups := (findKindBlocks (pyOfString "aws_security_group") content).map parseSgBlock
        albs := (findKindBlocks (pyOfString "aws_lb") content).map parseAlbBlock
        eips := (findKindBlocks (pyOfString "aws_eip") content).map parseEipBlock
        route53Records := (findKindBlocks (pyOfString "aws_route53_record") content).map parseR53Block
        lambdaFunctions := (findKindBlocks (pyOfString "aws_lambda_function") content).map parseLambdaBlock
        cloudwatchLogs := (findKindBlocks (pyOfString "aws_cloudwatch_log_group") content).map parseCwBlock
        iamRoles := (findKindBlocks (pyOfString "aws_iam_role") content).map parseIamRoleBlock
        iamPolicies := (findKindBlocks (pyOfString "aws_iam_policy") content).map parseIamPolicyBlock
        targetGroups := (findKindBlocks (pyOfString "aws_lb_target_group") content).map parseTgBlock
        locals := parseLocalsBlock content }))

/-- Outcome of `path.read_text()`. -/
inductive FileReadResult where
  | content (s : PyStr)
  | undecodable
deriving DecidableEq, Repr

/-- Python error signals of the parser entry points (messages omitted). -/
inductive PyError where
  | fileNotFound
  | valueError
deriving DecidableEq, Repr

/-- Embedding of `parse_terraform_file`: a missing file raises
`FileNotFoundError`, a failing `read_text` is re-raised as `ValueError`,
otherwise the pure extraction runs. -/
def parseTerraformFile (fileExists : Bool) (read : FileReadResult) :
    Except PyError ParsedTerraformConfig :=
  if fileExists = false then Except.error PyError.fileNotFound
  else
    match read with
    | FileReadResult.undecodable => Except.error PyError.valueError
    | FileReadResult.content s => Except.ok (parseTerraformContent s)

/-- Merge step of `parse_directory`: extend every collection (including
subscription filters) and update `locals` right-biased. -/
def mergeConfigs (combined fileConfig : ParsedTerraformConfig) :
    ParsedTerraformConfig :=
  { combined with
    ec2Instances := combined.ec2Instances ++ fileConfig.ec2Instances
    securityGroups := combined.securityGroups ++ fileConfig.securityGroups
    albs := combined.albs ++ fileConfig.albs
    eips := combined.eips ++ fileConfig.eips
    route53Records := combined.route53Records ++ fileConfig.route53Records
    lambdaFunctions := combined.lambdaFunctions ++ fileConfig.lambdaFunctions
    cloudwatchLogs := combined.cloudwatchLogs ++ fileConfig.cloudwatchLogs
    iamRoles := combined.iamRoles ++ fileConfig.iamRoles
    iamPolicies := combined.iamPolicies ++ fileConfig.iamPolicies
    targetGroups := combined.targetGroups ++ fileConfig.targetGroups
    subscriptionFilters := combined.subscriptionFilters ++ fileConfig.subscriptionFilters
    locals := fileConfig.locals.foldl (fun d nv => dictInsert nv.1 nv.2 d)
      combined.locals }

/-- The per-file loop of `parse_directory`: any per-file exception is
caught and re-raised as `ValueError`, aborting the whole batch. -/
def parseDirectoryLoop : List (Bool × FileReadResult) → ParsedTerraformConfig →
    Except PyError ParsedTerraformConfig
  | [], combined => Except.ok combined
  | f :: rest, combined =>
    match parseTerraformFile f.1 f.2 with
    | Except.error _ => Except.error PyError.valueError
    | Except.ok fileConfig => parseDirectoryLoop rest (mergeConfigs combined fileConfig)

/-- Embedding of `parse_directory` over a directory oracle: `dirExists`
models the existence/is-directory check and `files` the glob results
(per-file existence flag and read outcome).  Zero `.tf` files is a
`ValueError`. -/
def parseDirectory (dirExists : Bool) (files : List (Bool × FileReadResult)) :
    Except PyError ParsedTerraformConfig :=
  if dirExists = false then Except.error PyError.fileNotFound
  else if files.isEmpty then Except.error PyError.valueError
  else parseDirectoryLoop files {}

/-! ### Claim C2 -/

/-- Config holding only one subscription filter. -/
def subFilterOnlyConfig : ParsedTerraformConfig :=
  { subscriptionFilters :=
      [{ resourceType := pyOfString "aws_cloudwatch_log_subscription_filter"
         name := pyOfString "errors" }] }

/-- C2 counterexample: `get_all_resources` concatenates ten collections
and omits `subscription_filters`; on a config holding one subscription
filter, its length is 0 while the sum over every per-kind collection
(including the subscription-filter collection) is 1. -/
theorem claim_C2_counterexample :
    (subFilterOnlyConfig.getAllResources).length = 0 ∧
    subFilterOnlyConfig.ec2Instances.length +
      subFilterOnlyConfig.securityGroups.length +
      subFilterOnlyConfig.albs.length + subFilterOnlyConfig.eips.length +
      subFilterOnlyConfig.route53Records.length +
      subFilterOnlyConfig.lambdaFunctions.length +
      subFilterOnlyConfig.cloudwatchLogs.length +
      subFilterOnlyConfig.iamRoles.length +
      subFilterOnlyConfig.iamPolicies.length +
      subFilterOnlyConfig.targetGroups.length +
      subFilterOnlyConfig.subscriptionFilters.length = 1 ∧
    (0 : Nat) ≠ 1 := by
  refine ⟨by decide, by decide, by decide⟩

/-- C2 amended: for every ParsedConfig value `c`, `get_all_resources(c)`
is the concatenation of the ten per-kind collections in a fixed kind
order — every collection except `subscription_filters` — so its length
equals the sum of those ten lengths. -/
theorem claim_C2_amended (c : ParsedTerraformConfig) :
    c.getAllResources.length =
      c.ec2Instances.length + c.securityGroups.length + c.albs.length +
      c.eips.length + c.route53Records.length + c.lambdaFunctions.length +
      c.cloudwatchLogs.length + c.iamRoles.length + c.iamPolicies.length +
      c.targetGroups.length := by
  unfold ParsedTerraformConfig.getAllResources
  simp only [List.length_append]

/-! ### Claim C3 -/

lemma containsSub_cons_false {c : Nat} {rest pat : PyStr}
    (h : containsSub (c :: rest) pat = false) :
    listStartsWith pat (c :: rest) = false ∧ containsSub rest pat = false := by
  unfold containsSub at h
  simpa [Bool.or_eq_false_iff] using h

lemma pyReplaceFuel_of_not_contains (old new : PyStr) :
    ∀ (fuel : Nat) (s : PyStr), containsSub s old = false →
      pyReplaceFuel old new fuel s = s := by
  intro fuel
  induction fuel with
  | zero =>
    intro s _
    rfl
  | succ fuel ih =>
    intro s h
    cases s with
    | nil => rfl
    | cons c rest =>
      obtain ⟨h1, h2⟩ := containsSub_cons_false h
      rw [pyReplaceFuel]
      rw [if_neg (by simp [h1])]
      rw [ih rest h2]

lemma pyReplace_of_not_contains (s old new : PyStr)
    (h : containsSub s old = false) : pyReplace s old new = s :=
  pyReplaceFuel_of_not_contains old new s.length s h

/-- Amended-claim description of the resolver's net per-attribute effect:
for each `(name, value)` pair of `locals` in mapping order, replace every
occurrence of the substring `local.<name>` by `value`. -/
def substituteLocals (locs : List (PyStr × PyStr)) (v : PyStr) : PyStr :=
  locs.foldl (fun acc nv => pyReplace acc (pyOfString "local." ++ nv.1) nv.2) v

lemma resolveAttrValue_eq_substituteLocals (locs : List (PyStr × PyStr))
    (v : PyStr) : resolveAttrValue locs v = substituteLocals locs v := by
  cases locs with
  | nil =>
    unfold resolveAttrValue substituteLocals
    simp only [List.isEmpty_nil, if_true, List.foldl_nil]
    cases h : listStartsWith (pyOfString "local.") v
    · simp [h]
    · simp [h, List.lookup]
  | cons a as =>
    unfold resolveAttrValue substituteLocals
    simp [List.isEmpty_cons]

lemma substituteLocals_of_not_contains :
    ∀ (locs : List (PyStr × PyStr)) (v : PyStr),
      (∀ nv ∈ locs, containsSub v (pyOfString "local." ++ nv.1) = false) →
      substituteLocals locs v = v := by
  intro locs
  induction locs with
  | nil =>
    intro v _
    rfl
  | cons a as ih =>
    intro v h
    unfold substituteLocals
    simp only [List.foldl_cons]
    rw [pyReplace_of_not_contains v _ _ (h a (by simp))]
    exact ih v (fun nv hnv => h nv (by simp [hnv]))

/-- Config with one subscription filter carrying a `local.` reference. -/
def subFilterLocalConfig : ParsedTerraformConfig :=
  { subscriptionFilters :=
      [{ resourceType := pyOfString "aws_cloudwatch_log_subscription_filter"
         name := pyOfString "errors"
         attributes := [(pyOfString "filter_pattern",
           AttrValue.str (pyOfString "local.env"))] }]
    locals := [(pyOfString "env", pyOfString "prod")] }

/-- C3 counterexample: the resolver iterates over `get_all_resources()`,
which omits subscription filters, so a subscription-filter attribute
whose value is exactly `local.env` — with `env` a key of `locals` mapping
to `prod` — is left as `local.env` instead of being replaced. -/
theorem claim_C3_counterexample :
    (resolveVariableReferences subFilterLocalConfig).subscriptionFilters =
      subFilterLocalConfig.subscriptionFilters ∧
    subFilterLocalConfig.locals.lookup (pyOfString "env") =
      some (pyOfString "prod") ∧
    subFilterLocalConfig.subscriptionFilters.map (fun r => r.attributes) =
      [[(pyOfString "filter_pattern", AttrValue.str (pyOfString "local.env"))]] ∧
    pyOfString "local.env" ≠ pyOfString "prod" := by
  refine ⟨rfl, by decide, by decide, by decide⟩

/-- C3 amended: the resolver rewrites the attributes of the resources in
the ten `get_all_resources` collections (subscription filters are never
resolved); each string attribute value is rewritten by successively
replacing, for each `(name, value)` pair of `locals` in mapping order,
every occurrence of the substring `local.<name>` — whether the attribute
is exactly `local.<name>` or the reference is embedded in a longer
string — so `local.env` becomes `prod` and `svc-local.env` becomes
`svc-prod` under `locals = (env, prod)`, while a value in which no known
local occurs is left untouched, with no error. -/
theorem claim_C3_amended :
    (∀ (locs : List (PyStr × PyStr)) (v : PyStr),
      resolveAttrValue locs v = substituteLocals locs v) ∧
    (∀ (locs : List (PyStr × PyStr)) (v : PyStr),
      (∀ nv ∈ locs, containsSub v (pyOfString "local." ++ nv.1) = false) →
      resolveAttrValue locs v = v) ∧
    resolveAttrValue [(pyOfString "env", pyOfString "prod")]
      (pyOfString "local.env") = pyOfString "prod" ∧
    resolveAttrValue [(pyOfString "env", pyOfString "prod")]
      (pyOfString "svc-local.env") = pyOfString "svc-prod" ∧
    (∀ c : ParsedTerraformConfig,
      (resolveVariableReferences c).getAllResources =
        c.getAllResources.map (resolveResource c.locals) ∧
      (resolveVariableReferences c).subscriptionFilters =
        c.subscriptionFilters) := by
  refine ⟨resolveAttrValue_eq_substituteLocals, ?_, by decide, by decide, ?_⟩
  · intro locs v h
    rw [resolveAttrValue_eq_substituteLocals]
    exact substituteLocals_of_not_contains locs v h
  · intro c
    constructor
    · unfold ParsedTerraformConfig.getAllResources resolveVariableReferences
      simp [List.map_append]
    · rfl

/-- C3 amended witness. -/
theorem claim_C3_amended_witness :
    resolveAttrValue [(pyOfString "env", pyOfString "prod")]
      (pyOfString "image-id") = pyOfString "image-id" :=
  claim_C3_amended.2.1 [(pyOfString "env", pyOfString "prod")]
    (pyOfString "image-id") (by decide)

/-! ### Claim C5 -/

/-- A well-formed one-resource file. -/
def goodTfContent : PyStr :=
  pyOfString "resource \x22aws_eip\x22 \x22ip\x22 \x7b\n  domain = \x22vpc\x22\n\x7d\n"

lemma parseDirectoryLoop_error (post : List (Bool × FileReadResult)) :
    ∀ (pre : List (Bool × FileReadResult)) (combined : ParsedTerraformConfig),
      (∀ f ∈ pre, f.1 = true ∧ ∃ s, f.2 = FileReadResult.content s) →
      parseDirectoryLoop (pre ++ (true, FileReadResult.undecodable) :: post)
        combined = Except.error PyError.valueError := by
  intro pre
  induction pre with
  | nil =>
    intro combined _
    rfl
  | cons f rest ih =>
    intro combined h
    obtain ⟨hf1, s, hf2⟩ := h f (by simp)
    rw [List.cons_append, parseDirectoryLoop, hf1, hf2]
    exact ih _ (fun g hg => h g (by simp [hg]))

/-- C5 counterexample: with one well-formed file and one file whose read
fails, the directory parse raises `ValueError` and aborts — it does not
skip the bad file and continue (parsing the good file alone succeeds). -/
theorem claim_C5_counterexample :
    parseDirectory true
      [(true, FileReadResult.content goodTfContent),
        (true, FileReadResult.undecodable)] =
      Except.error PyError.valueError ∧
    (parseDirectory true [(true, FileReadResult.content goodTfContent)]).isOk =
      true := by
  refine ⟨rfl, rfl⟩

/-- C5 amended: a malformed file is not skipped — as soon as the per-file
loop reaches a file whose read or parse fails, `parse_directory` raises
`ValueError` (wrapping the failure) and the whole batch aborts,
regardless of how many well-formed files precede or follow it. -/
theorem claim_C5_amended (pre post : List (Bool × FileReadResult))
    (h : ∀ f ∈ pre, f.1 = true ∧ ∃ s, f.2 = FileReadResult.content s) :
    parseDirectory true (pre ++ (true, FileReadResult.undecodable) :: post) =
      Except.error PyError.valueError := by
  unfold parseDirectory
  rw [if_neg (by simp), if_neg (by simp)]
  exact parseDirectoryLoop_error post pre _ h

/-- C5 amended witness. -/
theorem claim_C5_amended_witness :
    parseDirectory true
      [(true, FileReadResult.content goodTfContent),
        (true, FileReadResult.undecodable)] =
      Except.error PyError.valueError :=
  claim_C5_amended [(true, FileReadResult.content goodTfContent)] []
    (by
      intro f hf
      simp only [List.mem_singleton] at hf
      rw [hf]
      exact ⟨rfl, goodTfContent, rfl⟩)

/-! ### Claim C4 -/

/-- Net effect of `detect_conditional_resources` on one of the six
collections it processes, as a fold over the matched blocks. -/
def blockFold (blocks : List (PyStr × PyStr × PyStr))
    (l : List TerraformResource) : List TerraformResource :=
  blocks.foldl (fun acc blk =>
    match detectTernary blk.2.2 with
    | none => acc
    | some cond => acc.map (markConditional blk.1 blk.2.1 cond)) l

/-- The ternary conditions of the blocks matching a given resource type
and name, in scan order. -/
def ternaryCondsOfBlocks (blocks : List (PyStr × PyStr × PyStr))
    (rtype rname : PyStr) : List PyStr :=
  blocks.filterMap (fun blk =>
    if blk.1 = rtype ∧ blk.2.1 = rname then detectTernary blk.2.2 else none)

/-- Per-element characterization of the marking fold: a resource ends up
marked with the condition of the last matching ternary block, when one
exists. -/
def elementMark (blocks : List (PyStr × PyStr × PyStr))
    (r : TerraformResource) : TerraformResource :=
  match (ternaryCondsOfBlocks blocks r.resourceType r.name).getLast? with
  | none => r
  | some cond => { r with isConditional := true, condition := cond }

lemma blockFold_cons_none {blk : PyStr × PyStr × PyStr}
    {blocks : List (PyStr × PyStr × PyStr)} {l : List TerraformResource}
    (h : detectTernary blk.2.2 = none) :
    blockFold (blk :: blocks) l = blockFold blocks l := by
  unfold blockFold
  rw [List.foldl_cons]
  simp only [h]

lemma blockFold_cons_some {blk : PyStr × PyStr × PyStr}
    {blocks : List (PyStr × PyStr × PyStr)} {l : List TerraformResource}
    {cond : PyStr} (h : detectTernary blk.2.2 = some cond) :
    blockFold (blk :: blocks) l =
      blockFold blocks (l.map (markConditional blk.1 blk.2.1 cond)) := by
  unfold blockFold
  rw [List.foldl_cons]
  simp only [h]

lemma ternaryConds_cons_match {blk : PyStr × PyStr × PyStr}
    {blocks : List (PyStr × PyStr × PyStr)} {rtype rname cond : PyStr}
    (hm : blk.1 = rtype ∧ blk.2.1 = rname)
    (h : detectTernary blk.2.2 = some cond) :
    ternaryCondsOfBlocks (blk :: blocks) rtype rname =
      cond :: ternaryCondsOfBlocks blocks rtype rname := by
  unfold ternaryCondsOfBlocks
  rw [List.filterMap_cons]
  rw [if_pos hm, h]

lemma ternaryConds_cons_skip {blk : PyStr × PyStr × PyStr}
    {blocks : List (PyStr × PyStr × PyStr)} {rtype rname : PyStr}
    (h : (if blk.1 = rtype ∧ blk.2.1 = rname then detectTernary blk.2.2
      else none) = none) :
    ternaryCondsOfBlocks (blk :: blocks) rtype rname =
      ternaryCondsOfBlocks blocks rtype rname := by
  unfold ternaryCondsOfBlocks
  rw [List.filterMap_cons]
  rw [h]

lemma elementMark_step (blk : PyStr × PyStr × PyStr)
    (blocks : List (PyStr × PyStr × PyStr)) (cond : PyStr)
    (h : detectTernary blk.2.2 = some cond) (r : TerraformResource) :
    elementMark blocks (markConditional blk.1 blk.2.1 cond r) =
      elementMark (blk :: blocks) r := by
  by_cases hm : r.resourceType = blk.1 ∧ r.name = blk.2.1
  · have hr2 : markConditional blk.1 blk.2.1 cond r =
        { r with isConditional := true, condition := cond } := by
      unfold markConditional
      rw [if_pos hm]
    rw [hr2]
    unfold elementMark
    rw [ternaryConds_cons_match ⟨hm.1.symm, hm.2.symm⟩ h]
    cases hrest : ternaryCondsOfBlocks blocks r.resourceType r.name with
    | nil => simp
    | cons x xs =>
      rw [List.getLast?_cons_cons]
      cases hy : (x :: xs).getLast? with
      | none => simp at hy
      | some y => simp
  · have hr2 : markConditional blk.1 blk.2.1 cond r = r := by
      unfold markConditional
      rw [if_neg hm]
    rw [hr2]
    unfold elementMark
    rw [ternaryConds_cons_skip (by
      rw [if_neg (fun hc => hm ⟨hc.1.symm, hc.2.symm⟩)])]

lemma blockFold_eq_map :
    ∀ (blocks : List (PyStr × PyStr × PyStr)) (l : List TerraformResource),
      blockFold blocks l = l.map (elementMark blocks) := by
  intro blocks
  induction blocks with
  | nil =>
    intro l
    have hid : ∀ r ∈ l, elementMark [] r = r := by
      intro r _
      unfold elementMark ternaryCondsOfBlocks
      simp
    rw [map_eq_self hid]
    rfl
  | cons blk blocks ih =>
    intro l
    cases h : detectTernary blk.2.2 with
    | none =>
      rw [blockFold_cons_none h, ih]
      refine List.map_congr_left (fun r _ => ?_)
      unfold elementMark
      rw [ternaryConds_cons_skip (by
        split_ifs with hc
        · exact h
        · rfl)]
    | some cond =>
      rw [blockFold_cons_some h, ih, List.map_map]
      exact List.map_congr_left (fun r _ => elementMark_step blk blocks cond h r)

lemma detect_eq_blockFold :
    ∀ (blocks : List (PyStr × PyStr × PyStr)) (c : ParsedTerraformConfig),
      blocks.foldl detectStep c =
        { c with
          ec2Instances := blockFold blocks c.ec2Instances
          albs := blockFold blocks c.albs
          route53Records := blockFold blocks c.route53Records
          lambdaFunctions := blockFold blocks c.lambdaFunctions
          cloudwatchLogs := blockFold blocks c.cloudwatchLogs
          targetGroups := blockFold blocks c.targetGroups } := by
  intro blocks
  induction blocks with
  | nil =>
    intro c
    rfl
  | cons blk blocks ih =>
    intro c
    rw [List.foldl_cons, ih]
    cases h : detectTernary blk.2.2 with
    | none =>
      rw [blockFold_cons_none h, blockFold_cons_none h, blockFold_cons_none h,
        blockFold_cons_none h, blockFold_cons_none h, blockFold_cons_none h]
      unfold detectStep
      rw [h]
    | some cond =>
      rw [blockFold_cons_some h, blockFold_cons_some h, blockFold_cons_some h,
        blockFold_cons_some h, blockFold_cons_some h, blockFold_cons_some h]
      unfold detectStep
      rw [h]

/-- A security-group block guarded by a ternary count. -/
def sgCountContent : PyStr :=
  pyOfString "resource \x22aws_security_group\x22 \x22web\x22 \x7b\n  count = local.use_acm ? 1 : 0\n  description = \x22sg\x22\n\x7d\n"

/-- C4 counterexample: parsing a security-group block whose body carries
`count = local.use_acm ? 1 : 0` leaves the parsed resource unmarked
(`is_conditional = false`, empty condition), although the generic block
scan does see the block and its ternary condition `local.use_acm` —
`detect_conditional_resources` only marks six resource kinds, and
security groups are not among them. -/
theorem claim_C4_counterexample :
    (parseTerraformContent sgCountContent).securityGroups.map
      (fun r => (r.name, r.isConditional, r.condition)) =
      [(pyOfString "web", false, ([] : PyStr))] ∧
    (findResourceBlocks sgCountContent).map
      (fun blk => (blk.1, blk.2.1, detectTernary blk.2.2)) =
      [(pyOfString "aws_security_group", pyOfString "web",
        some (pyOfString "local.use_acm"))] := by
  refine ⟨by decide, by decide⟩

/-- C4 amended: for a parsed resource of one of the six kinds that
`detect_conditional_resources` iterates over (EC2 instances, ALBs,
Route53 records, Lambda functions, CloudWatch log groups, target
groups — not security groups, EIPs, IAM roles/policies or subscription
filters), if the generic block scan finds matching blocks whose `count`
is a ternary `<condition> ? .. : ..`, the resource is marked
`is_conditional = True` with `condition` equal to the text strictly
before the `?` of the last such block, trimmed of whitespace. -/
theorem claim_C4_amended (content : PyStr) (c : ParsedTerraformConfig)
    (r : TerraformResource) (cond : PyStr)
    (hlast : (ternaryCondsOfBlocks (findResourceBlocks content)
      r.resourceType r.name).getLast? = some cond) :
    (r ∈ c.ec2Instances →
      { r with isConditional := true, condition := cond } ∈
        (detectConditionalResources content c).ec2Instances) ∧
    (r ∈ c.albs →
      { r with isConditional := true, condition := cond } ∈
        (detectConditionalResources content c).albs) ∧
    (r ∈ c.route53Records →
      { r with isConditional := true, condition := cond } ∈
        (detectConditionalResources content c).route53Records) ∧
    (r ∈ c.lambdaFunctions →
      { r with isConditional := true, condition := cond } ∈
        (detectConditionalResources content c).lambdaFunctions) ∧
    (r ∈ c.cloudwatchLogs →
      { r with isConditional := true, condition := cond } ∈
        (detectConditionalResources content c).cloudwatchLogs) ∧
    (r ∈ c.targetGroups →
      { r with isConditional := true, condition := cond } ∈
        (detectConditionalResources content c).targetGroups) ∧
    detectTernary (pyOfString "\n  count = local.use_acm ? 1 : 0\n") =
      some (pyOfString "local.use_acm") := by
  have hmark : elementMark (findResourceBlocks content) r =
      { r with isConditional := true, condition := cond } := by
    unfold elementMark
    rw [hlast]
  have hcfg := detect_eq_blockFold (findResourceBlocks content) c
  refine ⟨?_, ?_, ?_, ?_, ?_, ?_, by decide⟩
  all_goals
    intro hr
    unfold detectConditionalResources
    rw [hcfg]
    dsimp only
    rw [blockFold_eq_map]
    exact hmark ▸ List.mem_map_of_mem _ hr

/-- An EC2 block guarded by a ternary count, for the C4 witness. -/
def ec2CountContent : PyStr :=
  pyOfString "resource \x22aws_instance\x22 \x22gpu\x22 \x7b\n  count = local.use_gpu ? 1 : 0\n  ami = \x22ami-1\x22\n\x7d\n"

/-- The unmarked EC2 resource and config for the C4 witness. -/
def gpuEc2Resource : TerraformResource :=
  { resourceType := pyOfString "aws_instance"
    name := pyOfString "gpu" }

def gpuEc2Config : ParsedTerraformConfig :=
  { ec2Instances := [gpuEc2Resource] }

/-- C4 amended witness. -/
theorem claim_C4_amended_witness :
    ({ gpuEc2Resource with
        isConditional := true
        condition := pyOfString "local.use_gpu" } : TerraformResource) ∈
      (detectConditionalResources ec2CountContent gpuEc2Config).ec2Instances :=
  (claim_C4_amended ec2CountContent gpuEc2Config gpuEc2Resource
    (pyOfString "local.use_gpu") (by decide)).1 (by decide)
